import Mathlib

/-!
Shallow embedding of the keppel registry core (sapcc/keppel) for verifying
its natural-language specification.  Every definition mirrors a function or
SQL statement of the source tree (Go code and SQL migrations); theorems at
the end of the file settle the frozen claims about that source.

Timestamps are modelled as `Int` unix seconds (the test fixtures of the
source use plain second counts such as 3600 and 21600); the Go durations
`30 * time.Minute` and `1 * time.Hour` become the constants 1800 and 3600.
-/

set_option maxRecDepth 8000

namespace Keppel

/-! ## Vulnerability status lattice (internal/clair)

`VulnerabilityStatus` is a string type in the Go source; statuses stay
`String` here so that behaviour on values outside the enumeration (where
the Go map lookup `sevMap[s]` defaults to 0) is also captured. -/

/-- The eleven enumerated `VulnerabilityStatus` constants. -/
def allVulnerabilityStatuses : List String :=
  ["Error", "Pending", "Unsupported", "Clean", "Unknown", "Negligible",
   "Low", "Medium", "High", "Critical", "Defcon1"]

/-- `sevMap` of the source: a map from status to numeric severity; a Go map
lookup of an absent key yields the zero value 0. -/
def sevMap (s : String) : Nat :=
  if s = "Error" then 0
  else if s = "Pending" then 0
  else if s = "Unsupported" then 0
  else if s = "Clean" then 1
  else if s = "Unknown" then 2
  else if s = "Negligible" then 3
  else if s = "Low" then 4
  else if s = "Medium" then 5
  else if s = "High" then 6
  else if s = "Critical" then 7
  else if s = "Defcon1" then 8
  else 0

/-- `VulnerabilityStatus.HasReport` of the source: `return sevMap[s] > 0`. -/
def HasReport (s : String) : Bool :=
  sevMap s > 0

/-- The loop of `MergeVulnerabilityStatuses`: walks the input accumulating
the set of special severities seen (`hasSpecialSeverity`, here a list of
keys) and the running maximum-severity `result`. -/
def mergeLoop : List String → List String → String → List String × String
  | [], special, result => (special, result)
  | s :: rest, special, result =>
    if sevMap s = 0 then mergeLoop rest (s :: special) result
    else if sevMap s > sevMap result then mergeLoop rest special s
    else mergeLoop rest special result

/-- `MergeVulnerabilityStatuses` of the source: one pass collecting special
severities and the running maximum, then the override tiers
Error > Unsupported > Pending, else the maximum severity. -/
def MergeVulnerabilityStatuses (sevs : List String) : String :=
  let p := mergeLoop sevs [] "Clean"
  if "Error" ∈ p.1 then "Error"
  else if "Unsupported" ∈ p.1 then "Unsupported"
  else if "Pending" ∈ p.1 then "Pending"
  else p.2

/-- Modelled from the spec: "return the maximum severity among inputs
(empty input → Clean)", realised as a left fold that keeps the argument of
larger `sevMap` value, starting from `Clean`. -/
def specMaxSeverity (sevs : List String) : String :=
  sevs.foldl (fun acc x => if sevMap acc < sevMap x then x else acc) "Clean"

/-! ## Relational state for the blob-mount sweeper (internal/tasks/blob_mounts.go)

Only the columns consulted by the sweeper are modelled; tables are lists of
rows, and each SQL statement of the source becomes a list transformation. -/

/-- A row of the `repos` table (columns used by the blob-mount sweeper). -/
structure Repository where
  id : Nat
  account_name : String
  name : String
  next_blob_mount_sweep_at : Option Int
deriving DecidableEq, Repr

/-- A row of the `blob_mounts` table. -/
structure BlobMount where
  blob_id : Nat
  repo_id : Nat
  can_be_deleted_at : Option Int
deriving DecidableEq, Repr

/-- A row of the `manifest_blob_refs` table. -/
structure ManifestBlobRef where
  repo_id : Nat
  digest : String
  blob_id : Nat
deriving DecidableEq, Repr

/-- A row of the `manifests` table (columns used by the sweeper's search). -/
structure Manifest where
  repo_id : Nat
  digest : String
  validation_error_message : String
deriving DecidableEq, Repr

/-- The slice of the relational store the blob-mount sweeper touches. -/
structure DBState where
  repos : List Repository
  blob_mounts : List BlobMount
  manifest_blob_refs : List ManifestBlobRef
  manifests : List Manifest
deriving DecidableEq, Repr

/-- `keppel.Repository.FullName`. Modelled from the spec: a repository's
full name is its account name followed by its slash-separated name (the
defining Go method lives outside the provided sources). -/
def FullName (r : Repository) : String :=
  r.account_name ++ "/" ++ r.name

/-- The Go zero value of `keppel.Repository`, which is what
`repo.FullName()` sees when the search query itself fails. -/
def defaultRepository : Repository :=
  { id := 0, account_name := "", name := "", next_blob_mount_sweep_at := none }

/-- The subquery `SELECT repo_id FROM manifests WHERE
validation_error_message != ''` applied to one repo id. -/
def repoHasFailedManifest (s : DBState) (repoID : Nat) : Bool :=
  s.manifests.any fun m =>
    m.repo_id == repoID && !(m.validation_error_message == "")

/-- The WHERE clause of `blobMountSweepSearchQuery`, with SQL operator
precedence (`AND` binds tighter than `OR`):
`next_blob_mount_sweep_at IS NULL OR (next_blob_mount_sweep_at < $1 AND id
NOT IN (SELECT repo_id FROM manifests WHERE validation_error_message != ''))`. -/
def repoDueForBlobMountSweep (s : DBState) (now : Int) (r : Repository) : Bool :=
  match r.next_blob_mount_sweep_at with
  | none => true
  | some t => decide (t < now) && !(repoHasFailedManifest s r.id)

/-- The ORDER BY of `blobMountSweepSearchQuery`: `next_blob_mount_sweep_at
IS NULL DESC, next_blob_mount_sweep_at ASC` — `a` strictly precedes `b`. -/
def repoSortsBefore (a b : Repository) : Bool :=
  match a.next_blob_mount_sweep_at, b.next_blob_mount_sweep_at with
  | none, none => false
  | none, some _ => true
  | some _, none => false
  | some ta, some tb => decide (ta < tb)

/-- `blobMountSweepSearchQuery`: the WHERE filter, the ORDER BY, and
`LIMIT 1`, realised as picking a minimal element of the filtered list
(first listed wins ties, as PostgreSQL leaves tie order unspecified). -/
def selectNextRepo (s : DBState) (now : Int) : Option Repository :=
  (s.repos.filter (repoDueForBlobMountSweep s now)).foldl
    (fun best r =>
      match best with
      | none => some r
      | some b => if repoSortsBefore r b then some r else some b)
    none

/-- The subquery `SELECT blob_id FROM manifest_blob_refs WHERE repo_id = $1`
applied to one blob id. -/
def blobReferencedInRepo (s : DBState) (repoID blobID : Nat) : Bool :=
  s.manifest_blob_refs.any fun ref =>
    ref.repo_id == repoID && ref.blob_id == blobID

/-- `blobMountMarkQuery`: `UPDATE blob_mounts SET can_be_deleted_at = $2
WHERE repo_id = $1 AND can_be_deleted_at IS NULL AND blob_id NOT IN
(SELECT blob_id FROM manifest_blob_refs WHERE repo_id = $1)`. -/
def markBlobMounts (s : DBState) (repoID : Nat) (deadline : Int) : DBState :=
  { s with blob_mounts := s.blob_mounts.map fun bm =>
      if bm.repo_id == repoID && bm.can_be_deleted_at == none
          && !(blobReferencedInRepo s repoID bm.blob_id)
      then { bm with can_be_deleted_at := some deadline }
      else bm }

/-- `blobMountUnmarkQuery`: `UPDATE blob_mounts SET can_be_deleted_at = NULL
WHERE repo_id = $1 AND blob_id IN (SELECT blob_id FROM manifest_blob_refs
WHERE repo_id = $1)`. -/
def unmarkBlobMounts (s : DBState) (repoID : Nat) : DBState :=
  { s with blob_mounts := s.blob_mounts.map fun bm =>
      if bm.repo_id == repoID && blobReferencedInRepo s repoID bm.blob_id
      then { bm with can_be_deleted_at := none }
      else bm }

/-- `blobMountSweepMarkedQuery`: `DELETE FROM blob_mounts WHERE repo_id = $1
AND can_be_deleted_at < $2` (a NULL timestamp never satisfies `<`). -/
def sweepMarkedBlobMounts (s : DBState) (repoID : Nat) (now : Int) : DBState :=
  { s with blob_mounts := s.blob_mounts.filter fun bm =>
      !(bm.repo_id == repoID &&
        (match bm.can_be_deleted_at with
         | none => false
         | some t => decide (t < now))) }

/-- `blobMountSweepDoneQuery`: `UPDATE repos SET next_blob_mount_sweep_at =
$2 WHERE id = $1`. -/
def rescheduleBlobMountSweep (s : DBState) (repoID : Nat) (t : Int) : DBState :=
  { s with repos := s.repos.map fun r =>
      if r.id == repoID then { r with next_blob_mount_sweep_at := some t }
      else r }

/-- Injected outcomes of the five database round-trips of
`SweepBlobMountsInNextRepo`; `some e` means that round-trip failed with
error message `e` (and therefore did not change the database). -/
structure DbEnv where
  searchErr : Option String
  markErr : Option String
  unmarkErr : Option String
  sweepErr : Option String
  doneErr : Option String
deriving DecidableEq, Repr

/-- The environment in which every database round-trip succeeds. -/
def noDbErrors : DbEnv :=
  { searchErr := none, markErr := none, unmarkErr := none,
    sweepErr := none, doneErr := none }

/-- The error values `SweepBlobMountsInNextRepo` can return:
`sql.ErrNoRows`, or some other database error carrying a message. -/
inductive JanitorResult where
  | noRows
  | dbFailure (msg : String)
deriving DecidableEq, Repr

/-- The `fmt.Errorf("while sweeping blob mounts in repo %q: %s", ...)`
wrapping done by the deferred handler. -/
def wrapSweepError (r : Repository) (msg : String) : String :=
  "while sweeping blob mounts in repo \"" ++ FullName r ++ "\": " ++ msg

/-- The body of `SweepBlobMountsInNextRepo` (everything except the deferred
counter/wrapping logic): select a repo at time `t1`, mark with deadline
`t2 + 30min`, unmark, sweep rows older than `t3`, reschedule to `t4 + 1h`.
The four times are the four successive `j.timeNow()` calls.  Returns the
final database state, the repo variable visible to the deferred handler,
and the raw returned error. -/
def sweepBlobMountsBody (env : DbEnv) (s : DBState) (t1 t2 t3 t4 : Int) :
    DBState × Repository × Option JanitorResult :=
  match env.searchErr with
  | some e => (s, defaultRepository, some (.dbFailure e))
  | none =>
    match selectNextRepo s t1 with
    | none => (s, defaultRepository, some .noRows)
    | some repo =>
      match env.markErr with
      | some e => (s, repo, some (.dbFailure e))
      | none =>
        let s1 := markBlobMounts s repo.id (t2 + 1800)
        match env.unmarkErr with
        | some e => (s1, repo, some (.dbFailure e))
        | none =>
          let s2 := unmarkBlobMounts s1 repo.id
          match env.sweepErr with
          | some e => (s2, repo, some (.dbFailure e))
          | none =>
            let s3 := sweepMarkedBlobMounts s2 repo.id t3
            match env.doneErr with
            | some e => (s3, repo, some (.dbFailure e))
            | none => (rescheduleBlobMountSweep s3 repo.id (t4 + 3600), repo, none)

/-- The observable outcome of one `SweepBlobMountsInNextRepo` call: final
database state, the increments applied to the success and failure counters,
and the returned error after the deferred wrapping. -/
structure SweepOutcome where
  state : DBState
  successIncr : Nat
  failedIncr : Nat
  returnErr : Option JanitorResult
deriving DecidableEq, Repr

/-- `SweepBlobMountsInNextRepo` including its deferred handler: on nil error
increment the success counter; on `sql.ErrNoRows` return it unwrapped and
increment nothing; on any other error increment the failure counter and
wrap the message with the repo's full name. -/
def sweepBlobMountsInNextRepo (env : DbEnv) (s : DBState) (t1 t2 t3 t4 : Int) :
    SweepOutcome :=
  let b := sweepBlobMountsBody env s t1 t2 t3 t4
  match b.2.2 with
  | none => ⟨b.1, 1, 0, none⟩
  | some .noRows => ⟨b.1, 0, 0, some .noRows⟩
  | some (.dbFailure e) => ⟨b.1, 0, 1, some (.dbFailure (wrapSweepError b.2.1 e))⟩

/-! ## Paginated queries (internal/api/keppel/api.go) -/

/-- `strconv.ParseUint(s, 10, 64)`: succeeds exactly on a non-empty string
of decimal digits whose value fits in 64 bits (sign prefixes, blanks and
digit separators are all rejected; overflow is `ErrRange`). -/
def parseUint64Dec (s : String) : Option Nat :=
  if s.data = [] then none
  else if s.data.all (fun c => c.isDigit) then
    let n := s.data.foldl (fun acc c => acc * 10 + (c.toNat - 48)) 0
    if n < 2 ^ 64 then some n else none
  else none

/-- `strings.Replace(s, pat, rep, 1)` on character lists: replace the first
occurrence of `pat` (the patterns used here are non-empty). -/
def replaceFirstAux (pat rep : List Char) : List Char → List Char
  | [] => []
  | c :: rest =>
    if pat.isPrefixOf (c :: rest) then rep ++ (c :: rest).drop pat.length
    else c :: replaceFirstAux pat rep rest

/-- `strings.Replace(s, pat, rep, 1)`. -/
def replaceFirst (s pat rep : String) : String :=
  ⟨replaceFirstAux pat.data rep.data s.data⟩

/-- `paginatedQuery`: the SQL template, the marker field, the two query
options actually read (`q.Options.Get` returns `""` when the parameter is
absent), and the bind values. -/
structure PaginatedQuery where
  SQL : String
  MarkerField : String
  limitOption : String
  markerOption : String
  BindValues : List String
deriving DecidableEq, Repr

/-- `paginatedQuery.Prepare`: clamp the limit to 1000 (default 1000),
substitute `limit+1` for `$LIMIT`, and substitute `TRUE` or
`MarkerField > $2` (appending the marker bind value) for `$CONDITION`;
`none` models the error return on an unparseable `?limit=`. -/
def Prepare (q : PaginatedQuery) : Option (String × List String × Nat) :=
  let limitRes : Option Nat :=
    if q.limitOption = "" then some 1000
    else match parseUint64Dec q.limitOption with
      | none => none
      | some v => some (if v < 1000 then v else 1000)
  match limitRes with
  | none => none
  | some limit =>
    let query := replaceFirst q.SQL "$LIMIT" (toString (limit + 1))
    if q.markerOption = "" then
      some (replaceFirst query "$CONDITION" "TRUE", q.BindValues, limit)
    else
      some (replaceFirst query "$CONDITION" (q.MarkerField ++ " > $2"),
        q.BindValues ++ [q.markerOption], limit)

/-! ## Filesystem storage driver: CleanupAccount -/

/-- `keppel.StoredBlobInfo` (the field the driver fills). -/
structure StoredBlobInfo where
  storageID : String
deriving DecidableEq, Repr

/-- `keppel.StoredManifestInfo`. -/
structure StoredManifestInfo where
  repoName : String
  digest : String
deriving DecidableEq, Repr

/-- `StorageDriver.CleanupAccount` of the filesystem driver, as a function
of the triple returned by its `ListStorageContents` call: refuse while any
blob remains (naming the first), then while any manifest remains (naming
the first), else propagate the listing error verbatim. -/
def CleanupAccount (storedBlobs : List StoredBlobInfo)
    (storedManifests : List StoredManifestInfo) (err : Option String) :
    Option String :=
  match storedBlobs with
  | b :: _ =>
    some ("found undeleted blob during CleanupAccount: storageID = \""
      ++ b.storageID ++ "\"")
  | [] =>
    match storedManifests with
    | m :: _ =>
      some ("found undeleted manifest during CleanupAccount: "
        ++ m.repoName ++ "@" ++ m.digest)
    | [] => err

/-! ## Rate limiting (internal/keppel/ratelimit_driver.go) -/

/-- `math.MaxInt64`. -/
def maxInt64 : Int := 9223372036854775807

/-- `redis_rate.Limit` (period in nanoseconds, Go `time.Duration`). -/
structure RedisRateLimit where
  rate : Int
  burst : Int
  period : Int
deriving DecidableEq, Repr

/-- `time.Second` as a Go duration. -/
def timeSecond : Int := 1000000000

/-- `redis_rate.Result`. -/
structure RedisRateResult where
  limit : RedisRateLimit
  allowed : Int
  remaining : Int
  retryAfter : Int
  resetAfter : Int
deriving DecidableEq, Repr

/-- `RateLimitEngine.RateLimitAllows`, with the rate-limit driver's
`GetRateLimit` and the redis token-bucket `limiter.AllowN` passed as
functions.  The extra `Bool` records whether the redis limiter was
consulted.  Returns (allowed, result, error, consulted). -/
def RateLimitAllows
    (getRateLimit : String → String → Option RedisRateLimit)
    (allowN : String → RedisRateLimit → Int → RedisRateResult × Option String)
    (accountName action : String) (amount : Nat) :
    Bool × RedisRateResult × Option String × Bool :=
  match getRateLimit accountName action with
  | none =>
    (true,
     { limit := { rate := maxInt64, burst := 0, period := timeSecond },
       allowed := 0, remaining := maxInt64, retryAfter := -1, resetAfter := 0 },
     none, false)
  | some rateQuota =>
    let key := "keppel-ratelimit-" ++ action ++ "-" ++ accountName
    let r := allowN key rateQuota (Int.ofNat amount)
    match r.2 with
    | some e =>
      (false,
       { limit := { rate := 0, burst := 0, period := 0 },
         allowed := 0, remaining := 0, retryAfter := 0, resetAfter := 0 },
       some e, true)
    | none => (r.1.allowed > 0, r.1, none, true)

/-! ## Concrete states used as witnesses and counterexamples -/

/-- A repository that was never swept (`next_blob_mount_sweep_at IS NULL`)
inside a database where its only manifest has failed validation. -/
def c1Repo : Repository :=
  { id := 1, account_name := "test1", name := "foo",
    next_blob_mount_sweep_at := none }

/-- Database state for the C1 failing input: one never-swept repository
containing one manifest whose `validation_error_message` is non-empty. -/
def c1State : DBState :=
  { repos := [c1Repo],
    blob_mounts := [],
    manifest_blob_refs := [],
    manifests := [{ repo_id := 1, digest := "sha256:8a92",
                    validation_error_message := "manifest validation failed" }] }

/-- A small healthy state: repo 1 is due, blob 1 is referenced by a
manifest and mounted, blob 2 is mounted but unreferenced and unmarked. -/
def demoState : DBState :=
  { repos := [{ id := 1, account_name := "test1", name := "foo",
                next_blob_mount_sweep_at := some 100 }],
    blob_mounts :=
      [{ blob_id := 1, repo_id := 1, can_be_deleted_at := none },
       { blob_id := 2, repo_id := 1, can_be_deleted_at := none }],
    manifest_blob_refs :=
      [{ repo_id := 1, digest := "sha256:aaaa", blob_id := 1 }],
    manifests := [{ repo_id := 1, digest := "sha256:aaaa",
                    validation_error_message := "" }] }

/-- The repository row of `demoState`. -/
def demoRepo : Repository :=
  { id := 1, account_name := "test1", name := "foo",
    next_blob_mount_sweep_at := some 100 }

/-- A state with no repository at all, so no sweep is due. -/
def emptyState : DBState :=
  { repos := [], blob_mounts := [], manifest_blob_refs := [], manifests := [] }

/-! ## Helper lemmas about the merge loop -/

theorem mem_mergeLoop_fst {x : String} (sevs special : List String) (r : String) :
    x ∈ (mergeLoop sevs special r).1 ↔ x ∈ special ∨ (x ∈ sevs ∧ sevMap x = 0) := by
  induction sevs generalizing special r with
  | nil => simp [mergeLoop]
  | cons s rest ih =>
    simp only [mergeLoop]
    by_cases h : sevMap s = 0
    · rw [if_pos h, ih]
      have hs : x = s → sevMap x = 0 := fun e => e ▸ h
      simp only [List.mem_cons]
      tauto
    · rw [if_neg h]
      have hs : x = s → ¬sevMap x = 0 := fun e => e ▸ h
      by_cases h2 : sevMap s > sevMap r
      · rw [if_pos h2, ih]
        simp only [List.mem_cons]
        tauto
      · rw [if_neg h2, ih]
        simp only [List.mem_cons]
        tauto

theorem mergeLoop_snd (sevs : List String) (special : List String) (r : String) :
    (mergeLoop sevs special r).2 =
      sevs.foldl
        (fun acc x => if sevMap x = 0 then acc
          else if sevMap acc < sevMap x then x else acc) r := by
  induction sevs generalizing special r with
  | nil => rfl
  | cons s rest ih =>
    simp only [mergeLoop, List.foldl_cons]
    by_cases h : sevMap s = 0
    · rw [if_pos h, if_pos h, ih]
    · by_cases h2 : sevMap r < sevMap s
      · rw [if_neg h, if_neg h, if_pos (show sevMap s > sevMap r from h2),
          if_pos h2, ih]
      · rw [if_neg h, if_neg h, if_neg (show ¬sevMap s > sevMap r from h2),
          if_neg h2, ih]

theorem sevMap_ne_zero_of_mem {x : String} (hx : x ∈ allVulnerabilityStatuses)
    (hE : x ≠ "Error") (hP : x ≠ "Pending") (hU : x ≠ "Unsupported") :
    sevMap x ≠ 0 := by
  simp only [allVulnerabilityStatuses, List.mem_cons, List.not_mem_nil,
    or_false] at hx
  rcases hx with rfl | rfl | rfl | rfl | rfl | rfl | rfl | rfl | rfl | rfl | rfl
  · exact absurd rfl hE
  · exact absurd rfl hP
  · exact absurd rfl hU
  all_goals decide

theorem foldl_merge_eq_max (l : List String) (acc : String)
    (h : ∀ x ∈ l, sevMap x ≠ 0) :
    l.foldl (fun acc x => if sevMap x = 0 then acc
      else if sevMap acc < sevMap x then x else acc) acc =
    l.foldl (fun acc x => if sevMap acc < sevMap x then x else acc) acc := by
  induction l generalizing acc with
  | nil => rfl
  | cons s rest ih =>
    simp only [List.foldl_cons]
    rw [if_neg (h s (List.mem_cons_self s rest))]
    exact ih _ (fun x hx => h x (List.mem_cons_of_mem s hx))

/-! ## Claim C3 -/

/-- C3: `MergeVulnerabilityStatuses` returns Error if any input is Error;
otherwise Unsupported if any input is Unsupported; otherwise Pending if any
input is Pending; otherwise the maximum input severity under the order
Clean < Unknown < Negligible < Low < Medium < High < Critical < Defcon1;
and for an empty input list it returns Clean. -/
theorem mergeVulnerabilityStatuses_c3 (l : List String)
    (hl : ∀ x ∈ l, x ∈ allVulnerabilityStatuses) :
    (MergeVulnerabilityStatuses l =
      if "Error" ∈ l then "Error"
      else if "Unsupported" ∈ l then "Unsupported"
      else if "Pending" ∈ l then "Pending"
      else specMaxSeverity l)
    ∧ MergeVulnerabilityStatuses [] = "Clean" := by
  have hfst : ∀ x : String,
      x ∈ (mergeLoop l [] "Clean").1 ↔ x ∈ l ∧ sevMap x = 0 := by
    intro x
    rw [mem_mergeLoop_fst]
    simp
  refine ⟨?_, by decide⟩
  simp only [MergeVulnerabilityStatuses]
  by_cases hE : "Error" ∈ l
  · rw [if_pos ((hfst "Error").mpr ⟨hE, by decide⟩), if_pos hE]
  · rw [if_neg (fun h => hE ((hfst "Error").mp h).1), if_neg hE]
    by_cases hU : "Unsupported" ∈ l
    · rw [if_pos ((hfst "Unsupported").mpr ⟨hU, by decide⟩), if_pos hU]
    · rw [if_neg (fun h => hU ((hfst "Unsupported").mp h).1), if_neg hU]
      by_cases hP : "Pending" ∈ l
      · rw [if_pos ((hfst "Pending").mpr ⟨hP, by decide⟩), if_pos hP]
      · rw [if_neg (fun h => hP ((hfst "Pending").mp h).1), if_neg hP]
        rw [mergeLoop_snd, specMaxSeverity]
        exact foldl_merge_eq_max l "Clean" fun x hx =>
          sevMap_ne_zero_of_mem (hl x hx)
            (fun e => hE (e ▸ hx)) (fun e => hP (e ▸ hx)) (fun e => hU (e ▸ hx))

/-- Witness for C3 at the spec's seed scenario `{Clean, High, Pending}`. -/
theorem mergeVulnerabilityStatuses_c3_witness :
    MergeVulnerabilityStatuses ["Clean", "High", "Pending"] = "Pending"
    ∧ MergeVulnerabilityStatuses [] = "Clean" := by
  have h := mergeVulnerabilityStatuses_c3 ["Clean", "High", "Pending"] (by decide)
  exact ⟨by rw [h.1]; decide, h.2⟩

/-! ## Claim C4 -/

/-- C4: over the eleven enumerated statuses, the merge is commutative and
associative (identifying the n-ary merge with repeated binary merge), is
idempotent on singletons, and merges the empty list to Clean. -/
theorem mergeVulnerabilityStatuses_c4 :
    (∀ a ∈ allVulnerabilityStatuses, ∀ b ∈ allVulnerabilityStatuses,
      MergeVulnerabilityStatuses [a, b] = MergeVulnerabilityStatuses [b, a]) ∧
    (∀ a ∈ allVulnerabilityStatuses, ∀ b ∈ allVulnerabilityStatuses,
      ∀ c ∈ allVulnerabilityStatuses,
      MergeVulnerabilityStatuses [MergeVulnerabilityStatuses [a, b], c] =
        MergeVulnerabilityStatuses [a, MergeVulnerabilityStatuses [b, c]]) ∧
    (∀ a ∈ allVulnerabilityStatuses, MergeVulnerabilityStatuses [a] = a) ∧
    MergeVulnerabilityStatuses [] = "Clean" := by
  decide

/-- Witness for C4: its clauses applied at concrete enumerated statuses. -/
theorem mergeVulnerabilityStatuses_c4_witness :
    MergeVulnerabilityStatuses ["Error", "High"] =
      MergeVulnerabilityStatuses ["High", "Error"]
    ∧ MergeVulnerabilityStatuses [MergeVulnerabilityStatuses ["Low", "High"], "Pending"] =
      MergeVulnerabilityStatuses ["Low", MergeVulnerabilityStatuses ["High", "Pending"]]
    ∧ MergeVulnerabilityStatuses ["Unsupported"] = "Unsupported" :=
  ⟨mergeVulnerabilityStatuses_c4.1 "Error" (by decide) "High" (by decide),
   mergeVulnerabilityStatuses_c4.2.1 "Low" (by decide) "High" (by decide)
     "Pending" (by decide),
   mergeVulnerabilityStatuses_c4.2.2.1 "Unsupported" (by decide)⟩

/-! ## Claim C9 -/

/-- C9: `HasReport` returns true exactly on the eight ordered severities
(the tail of the enumeration after Error, Pending, Unsupported); it returns
false on the three special values and on every string outside the
enumeration, because the severity map lookup defaults to 0. -/
theorem hasReport_c9 :
    (∀ x ∈ allVulnerabilityStatuses,
      (HasReport x = true ↔ x ∈ allVulnerabilityStatuses.drop 3)) ∧
    (∀ s : String, s ∉ allVulnerabilityStatuses → HasReport s = false) := by
  constructor
  · decide
  · intro s hs
    simp only [allVulnerabilityStatuses, List.mem_cons, List.not_mem_nil,
      or_false, not_or] at hs
    obtain ⟨h1, h2, h3, h4, h5, h6, h7, h8, h9, h10, h11⟩ := hs
    simp [HasReport, sevMap, h1, h2, h3, h4, h5, h6, h7, h8, h9, h10, h11]

/-- Witness for C9: a severity with a report, a special value without one,
and a string outside the enumeration. -/
theorem hasReport_c9_witness :
    HasReport "Clean" = true ∧ HasReport "bogus-status" = false :=
  ⟨(hasReport_c9.1 "Clean" (by decide)).mpr (by decide),
   hasReport_c9.2 "bogus-status" (by decide)⟩

/-! ## Helper lemmas about the blob-mount sweeper -/

theorem blobReferencedInRepo_iff (s : DBState) (repoID blobID : Nat) :
    blobReferencedInRepo s repoID blobID = true ↔
      ∃ ref ∈ s.manifest_blob_refs, ref.repo_id = repoID ∧ ref.blob_id = blobID := by
  simp [blobReferencedInRepo, List.any_eq_true]

theorem markBlobMounts_refs (s : DBState) (repoID : Nat) (d : Int) :
    (markBlobMounts s repoID d).manifest_blob_refs = s.manifest_blob_refs := rfl

theorem blobReferencedInRepo_mark (s : DBState) (repoID : Nat) (d : Int)
    (rid bid : Nat) :
    blobReferencedInRepo (markBlobMounts s repoID d) rid bid =
      blobReferencedInRepo s rid bid := rfl

theorem sweepBody_happy (s : DBState) (t1 t2 t3 t4 : Int) (repo : Repository)
    (h : selectNextRepo s t1 = some repo) :
    sweepBlobMountsBody noDbErrors s t1 t2 t3 t4 =
      (rescheduleBlobMountSweep
        (sweepMarkedBlobMounts
          (unmarkBlobMounts (markBlobMounts s repo.id (t2 + 1800)) repo.id)
          repo.id t3)
        repo.id (t4 + 3600), repo, none) := by
  simp [sweepBlobMountsBody, noDbErrors, h]

theorem sweepOutcome_happy_state (s : DBState) (t1 t2 t3 t4 : Int)
    (repo : Repository) (h : selectNextRepo s t1 = some repo) :
    (sweepBlobMountsInNextRepo noDbErrors s t1 t2 t3 t4).state =
      rescheduleBlobMountSweep
        (sweepMarkedBlobMounts
          (unmarkBlobMounts (markBlobMounts s repo.id (t2 + 1800)) repo.id)
          repo.id t3)
        repo.id (t4 + 3600) := by
  simp [sweepBlobMountsInNextRepo, sweepBody_happy s t1 t2 t3 t4 repo h]

/-- A blob mount that is referenced by `manifest_blob_refs` of its own repo
survives the mark/unmark/sweep/reschedule pipeline with a cleared
deletion timestamp. -/
theorem referenced_mount_survives (s : DBState) (rid : Nat) (d tS tD : Int)
    (bm : BlobMount) (hbm : bm ∈ s.blob_mounts) (hr : bm.repo_id = rid)
    (href : blobReferencedInRepo s rid bm.blob_id = true) :
    { bm with can_be_deleted_at := none } ∈
      (rescheduleBlobMountSweep
        (sweepMarkedBlobMounts
          (unmarkBlobMounts (markBlobMounts s rid d) rid) rid tS)
        rid tD).blob_mounts := by
  have h1 : bm ∈ (markBlobMounts s rid d).blob_mounts := by
    have hm := List.mem_map_of_mem (fun bm : BlobMount =>
        if bm.repo_id == rid && bm.can_be_deleted_at == none
            && !(blobReferencedInRepo s rid bm.blob_id)
        then { bm with can_be_deleted_at := some d } else bm) hbm
    have he : (fun bm : BlobMount =>
        if bm.repo_id == rid && bm.can_be_deleted_at == none
            && !(blobReferencedInRepo s rid bm.blob_id)
        then { bm with can_be_deleted_at := some d } else bm) bm = bm := by
      simp [href]
    rw [he] at hm
    exact hm
  have h2 : { bm with can_be_deleted_at := none } ∈
      (unmarkBlobMounts (markBlobMounts s rid d) rid).blob_mounts := by
    have hm := List.mem_map_of_mem (fun bm : BlobMount =>
        if bm.repo_id == rid
            && blobReferencedInRepo (markBlobMounts s rid d) rid bm.blob_id
        then { bm with can_be_deleted_at := none } else bm) h1
    have he : (fun bm : BlobMount =>
        if bm.repo_id == rid
            && blobReferencedInRepo (markBlobMounts s rid d) rid bm.blob_id
        then { bm with can_be_deleted_at := none } else bm) bm =
        { bm with can_be_deleted_at := none } := by
      simp [blobReferencedInRepo_mark, hr, href]
    rw [he] at hm
    exact hm
  have h3 : { bm with can_be_deleted_at := none } ∈
      (sweepMarkedBlobMounts
        (unmarkBlobMounts (markBlobMounts s rid d) rid) rid tS).blob_mounts := by
    simp only [sweepMarkedBlobMounts, List.mem_filter]
    exact ⟨h2, by simp⟩
  simpa [rescheduleBlobMountSweep] using h3

/-- A blob mount belonging to a different repository passes through the
pipeline unchanged. -/
theorem other_repo_mount_survives (s : DBState) (rid : Nat) (d tS tD : Int)
    (bm : BlobMount) (hbm : bm ∈ s.blob_mounts) (hr : bm.repo_id ≠ rid) :
    bm ∈
      (rescheduleBlobMountSweep
        (sweepMarkedBlobMounts
          (unmarkBlobMounts (markBlobMounts s rid d) rid) rid tS)
        rid tD).blob_mounts := by
  have hbeq : (bm.repo_id == rid) = false := by
    simpa using hr
  have h1 : bm ∈ (markBlobMounts s rid d).blob_mounts := by
    have hm := List.mem_map_of_mem (fun bm : BlobMount =>
        if bm.repo_id == rid && bm.can_be_deleted_at == none
            && !(blobReferencedInRepo s rid bm.blob_id)
        then { bm with can_be_deleted_at := some d } else bm) hbm
    have he : (fun bm : BlobMount =>
        if bm.repo_id == rid && bm.can_be_deleted_at == none
            && !(blobReferencedInRepo s rid bm.blob_id)
        then { bm with can_be_deleted_at := some d } else bm) bm = bm := by
      simp [hbeq]
    rw [he] at hm
    exact hm
  have h2 : bm ∈ (unmarkBlobMounts (markBlobMounts s rid d) rid).blob_mounts := by
    have hm := List.mem_map_of_mem (fun bm : BlobMount =>
        if bm.repo_id == rid
            && blobReferencedInRepo (markBlobMounts s rid d) rid bm.blob_id
        then { bm with can_be_deleted_at := none } else bm) h1
    have he : (fun bm : BlobMount =>
        if bm.repo_id == rid
            && blobReferencedInRepo (markBlobMounts s rid d) rid bm.blob_id
        then { bm with can_be_deleted_at := none } else bm) bm = bm := by
      simp [hbeq]
    rw [he] at hm
    exact hm
  have h3 : bm ∈
      (sweepMarkedBlobMounts
        (unmarkBlobMounts (markBlobMounts s rid d) rid) rid tS).blob_mounts := by
    simp only [sweepMarkedBlobMounts, List.mem_filter]
    exact ⟨h2, by simp [hbeq]⟩
  simpa [rescheduleBlobMountSweep] using h3

theorem markBlobMounts_exact (s : DBState) (rid : Nat) (d : Int) :
    (markBlobMounts s rid d).blob_mounts =
      s.blob_mounts.map (fun bm =>
        if bm.repo_id = rid ∧ bm.can_be_deleted_at = none ∧
            ¬∃ ref ∈ s.manifest_blob_refs,
              ref.repo_id = rid ∧ ref.blob_id = bm.blob_id
        then { bm with can_be_deleted_at := some d } else bm) := by
  simp only [markBlobMounts]
  refine List.map_congr_left fun bm _ => ?_
  by_cases h : bm.repo_id = rid ∧ bm.can_be_deleted_at = none ∧
      ¬∃ ref ∈ s.manifest_blob_refs, ref.repo_id = rid ∧ ref.blob_id = bm.blob_id
  · obtain ⟨ha, hb, hc⟩ := h
    have hbr : blobReferencedInRepo s rid bm.blob_id = false := by
      cases hx : blobReferencedInRepo s rid bm.blob_id
      · rfl
      · exact absurd ((blobReferencedInRepo_iff s rid bm.blob_id).mp hx) hc
    rw [if_pos (show _ ∧ _ ∧ _ from ⟨ha, hb, hc⟩), if_pos]
    simp [ha, hb, hbr]
  · rw [if_neg h, if_neg]
    intro hcond
    simp only [Bool.and_eq_true, beq_iff_eq, Bool.not_eq_true'] at hcond
    exact h ⟨hcond.1.1, hcond.1.2, fun hex => by
      rw [(blobReferencedInRepo_iff s rid bm.blob_id).mpr hex] at hcond
      exact absurd hcond.2 (by simp)⟩

/-! ## Claim C1 -/

/-- C1: the claim that the search query always excludes repositories with a
failed manifest fails on the code.  Because `AND` binds tighter than `OR`
in `blobMountSweepSearchQuery`, a repository whose
`next_blob_mount_sweep_at` is NULL is selected even though its only
manifest has a non-empty `validation_error_message` — contradicting the
query's own NOTE comment ("This skips over repos where some or all
manifests have failed validation"). -/
theorem blobMountSweepSearch_c1_divergence :
    selectNextRepo c1State 100 = some c1Repo ∧
    repoHasFailedManifest c1State c1Repo.id = true := by
  decide

/-! ## Claim C2 -/

/-- C2: for the repository processed by `SweepBlobMountsInNextRepo`, every
blob mount whose blob id appears in `manifest_blob_refs` of that repository
at sweep time survives the pass, with `can_be_deleted_at` reset to NULL by
the unmark step that runs strictly before the sweep step; mounts of other
repositories pass through untouched, so the mount-before-reference
invariant is preserved. -/
theorem sweepBlobMounts_c2 (s : DBState) (t1 t2 t3 t4 : Int) (repo : Repository)
    (hsel : selectNextRepo s t1 = some repo)
    (ref : ManifestBlobRef) (href : ref ∈ s.manifest_blob_refs)
    (bm : BlobMount) (hbm : bm ∈ s.blob_mounts)
    (hrid : bm.repo_id = ref.repo_id) (hbid : bm.blob_id = ref.blob_id) :
    ∃ bm2 ∈ (sweepBlobMountsInNextRepo noDbErrors s t1 t2 t3 t4).state.blob_mounts,
      bm2.repo_id = ref.repo_id ∧ bm2.blob_id = ref.blob_id ∧
      (ref.repo_id = repo.id → bm2.can_be_deleted_at = none) := by
  rw [sweepOutcome_happy_state s t1 t2 t3 t4 repo hsel]
  by_cases hcase : ref.repo_id = repo.id
  · have hr : bm.repo_id = repo.id := hrid.trans hcase
    have hbr : blobReferencedInRepo s repo.id bm.blob_id = true :=
      (blobReferencedInRepo_iff s repo.id bm.blob_id).mpr
        ⟨ref, href, hcase, hbid.symm⟩
    exact ⟨{ bm with can_be_deleted_at := none },
      referenced_mount_survives s repo.id (t2 + 1800) t3 (t4 + 3600)
        bm hbm hr hbr,
      hrid, hbid, fun _ => rfl⟩
  · have hr : bm.repo_id ≠ repo.id := fun h => hcase (hrid.symm.trans h)
    exact ⟨bm,
      other_repo_mount_survives s repo.id (t2 + 1800) t3 (t4 + 3600)
        bm hbm hr,
      hrid, hbid, fun h => absurd h hcase⟩

/-- Witness for C2: in `demoState`, the mount of referenced blob 1 survives
the sweep of repo 1 with a cleared deletion timestamp. -/
theorem sweepBlobMounts_c2_witness :
    ∃ bm2 ∈ (sweepBlobMountsInNextRepo noDbErrors demoState
        200 200 210 220).state.blob_mounts,
      bm2.repo_id = 1 ∧ bm2.blob_id = 1 ∧
      (1 = demoRepo.id → bm2.can_be_deleted_at = none) :=
  sweepBlobMounts_c2 demoState 200 200 210 220 demoRepo (by decide)
    { repo_id := 1, digest := "sha256:aaaa", blob_id := 1 } (by decide)
    { blob_id := 1, repo_id := 1, can_be_deleted_at := none } (by decide)
    rfl rfl

/-! ## Claim C5 -/

/-- C5: in one invocation on the selected repository, the mark step stamps
`can_be_deleted_at = now + 30min` on exactly the currently unmarked blob
mounts of the repository whose blob id has no `manifest_blob_refs` row
there; the invocation finally sets the repository's
`next_blob_mount_sweep_at` to now + 1h; and (while the pass stays within
the 30-minute buffer) a mount marked during the invocation is not deleted
by the same invocation's sweep step. -/
theorem sweepBlobMounts_c5 (s : DBState) (t1 t2 t3 t4 : Int) (repo : Repository)
    (hsel : selectNextRepo s t1 = some repo) :
    ((markBlobMounts s repo.id (t2 + 1800)).blob_mounts =
      s.blob_mounts.map (fun bm =>
        if bm.repo_id = repo.id ∧ bm.can_be_deleted_at = none ∧
            ¬∃ ref ∈ s.manifest_blob_refs,
              ref.repo_id = repo.id ∧ ref.blob_id = bm.blob_id
        then { bm with can_be_deleted_at := some (t2 + 1800) } else bm))
    ∧ ((sweepBlobMountsInNextRepo noDbErrors s t1 t2 t3 t4).state.repos =
      s.repos.map (fun r =>
        if r.id = repo.id
        then { r with next_blob_mount_sweep_at := some (t4 + 3600) } else r))
    ∧ (∀ bm ∈ s.blob_mounts, bm.repo_id = repo.id →
        bm.can_be_deleted_at = none →
        (¬∃ ref ∈ s.manifest_blob_refs,
            ref.repo_id = repo.id ∧ ref.blob_id = bm.blob_id) →
        t3 ≤ t2 + 1800 →
        { bm with can_be_deleted_at := some (t2 + 1800) } ∈
          (sweepBlobMountsInNextRepo noDbErrors s t1 t2 t3 t4).state.blob_mounts) := by
  refine ⟨markBlobMounts_exact s repo.id (t2 + 1800), ?_, ?_⟩
  · rw [sweepOutcome_happy_state s t1 t2 t3 t4 repo hsel]
    show ((sweepMarkedBlobMounts
        (unmarkBlobMounts (markBlobMounts s repo.id (t2 + 1800)) repo.id)
        repo.id t3).repos.map _) = _
    refine List.map_congr_left fun r _ => ?_
    by_cases h : r.id = repo.id <;> simp [h]
  · intro bm hbm hr hcan hunref ht
    rw [sweepOutcome_happy_state s t1 t2 t3 t4 repo hsel]
    have hbr : blobReferencedInRepo s repo.id bm.blob_id = false := by
      cases hx : blobReferencedInRepo s repo.id bm.blob_id
      · rfl
      · exact absurd ((blobReferencedInRepo_iff s repo.id bm.blob_id).mp hx) hunref
    have h1 : { bm with can_be_deleted_at := some (t2 + 1800) } ∈
        (markBlobMounts s repo.id (t2 + 1800)).blob_mounts := by
      have hm := List.mem_map_of_mem (fun bm : BlobMount =>
          if bm.repo_id == repo.id && bm.can_be_deleted_at == none
              && !(blobReferencedInRepo s repo.id bm.blob_id)
          then { bm with can_be_deleted_at := some (t2 + 1800) } else bm) hbm
      have he : (fun bm : BlobMount =>
          if bm.repo_id == repo.id && bm.can_be_deleted_at == none
              && !(blobReferencedInRepo s repo.id bm.blob_id)
          then { bm with can_be_deleted_at := some (t2 + 1800) } else bm) bm =
          { bm with can_be_deleted_at := some (t2 + 1800) } := by
        simp [hr, hcan, hbr]
      rw [he] at hm
      exact hm
    have h2 : { bm with can_be_deleted_at := some (t2 + 1800) } ∈
        (unmarkBlobMounts (markBlobMounts s repo.id (t2 + 1800))
          repo.id).blob_mounts := by
      have hm := List.mem_map_of_mem (fun bm : BlobMount =>
          if bm.repo_id == repo.id
              && blobReferencedInRepo (markBlobMounts s repo.id (t2 + 1800))
                  repo.id bm.blob_id
          then { bm with can_be_deleted_at := none } else bm) h1
      have he : (fun bm : BlobMount =>
          if bm.repo_id == repo.id
              && blobReferencedInRepo (markBlobMounts s repo.id (t2 + 1800))
                  repo.id bm.blob_id
          then { bm with can_be_deleted_at := none } else bm)
          { bm with can_be_deleted_at := some (t2 + 1800) } =
          { bm with can_be_deleted_at := some (t2 + 1800) } := by
        simp [blobReferencedInRepo_mark, hbr]
      rw [he] at hm
      exact hm
    have hlt : ¬(t2 + 1800 < t3) := not_lt.mpr ht
    have h3 : { bm with can_be_deleted_at := some (t2 + 1800) } ∈
        (sweepMarkedBlobMounts
          (unmarkBlobMounts (markBlobMounts s repo.id (t2 + 1800)) repo.id)
          repo.id t3).blob_mounts := by
      simp only [sweepMarkedBlobMounts, List.mem_filter]
      exact ⟨h2, by simp [hlt]⟩
    simpa [rescheduleBlobMountSweep] using h3

/-- Witness for C5 in `demoState`: the unreferenced, unmarked mount of
blob 2 gets stamped `can_be_deleted_at = 2000` and still exists after the
pass, and the repo is rescheduled to 220 + 3600. -/
theorem sweepBlobMounts_c5_witness :
    ((sweepBlobMountsInNextRepo noDbErrors demoState 200 200 210 220).state.repos =
      demoState.repos.map (fun r =>
        if r.id = demoRepo.id
        then { r with next_blob_mount_sweep_at := some (220 + 3600) } else r))
    ∧ ({ blob_id := 2, repo_id := 1, can_be_deleted_at := some (200 + 1800) } :
        BlobMount) ∈
      (sweepBlobMountsInNextRepo noDbErrors demoState
        200 200 210 220).state.blob_mounts := by
  have h := sweepBlobMounts_c5 demoState 200 200 210 220 demoRepo (by decide)
  exact ⟨h.2.1,
    h.2.2 { blob_id := 2, repo_id := 1, can_be_deleted_at := none } (by decide)
      rfl rfl (by decide) (by decide)⟩

/-! ## Claim C6 -/

/-- C6: when no repository is due the sweeper returns `sql.ErrNoRows`
unwrapped and increments neither counter; when it completes without error
it increments the success counter; and on any other error it increments
the failure counter and returns the error wrapped with the full name of
the repository being swept. -/
theorem sweepBlobMounts_c6 (env : DbEnv) (s : DBState) (t1 t2 t3 t4 : Int) :
    (env.searchErr = none → selectNextRepo s t1 = none →
      sweepBlobMountsInNextRepo env s t1 t2 t3 t4 =
        ⟨s, 0, 0, some .noRows⟩) ∧
    ((sweepBlobMountsBody env s t1 t2 t3 t4).2.2 = none →
      (sweepBlobMountsInNextRepo env s t1 t2 t3 t4).successIncr = 1 ∧
      (sweepBlobMountsInNextRepo env s t1 t2 t3 t4).failedIncr = 0 ∧
      (sweepBlobMountsInNextRepo env s t1 t2 t3 t4).returnErr = none) ∧
    (∀ e, (sweepBlobMountsBody env s t1 t2 t3 t4).2.2 = some (.dbFailure e) →
      (sweepBlobMountsInNextRepo env s t1 t2 t3 t4).successIncr = 0 ∧
      (sweepBlobMountsInNextRepo env s t1 t2 t3 t4).failedIncr = 1 ∧
      (sweepBlobMountsInNextRepo env s t1 t2 t3 t4).returnErr =
        some (.dbFailure
          (wrapSweepError (sweepBlobMountsBody env s t1 t2 t3 t4).2.1 e))) := by
  refine ⟨?_, ?_, ?_⟩
  · intro h1 h2
    simp [sweepBlobMountsInNextRepo, sweepBlobMountsBody, h1, h2]
  · intro h
    simp [sweepBlobMountsInNextRepo, h]
  · intro e h
    simp [sweepBlobMountsInNextRepo, h]

/-- Witness for C6: the idle case on a repo-less database, the success case
on `demoState`, and a failing mark statement on `demoState`. -/
theorem sweepBlobMounts_c6_witness :
    sweepBlobMountsInNextRepo noDbErrors emptyState 0 0 0 0 =
      ⟨emptyState, 0, 0, some .noRows⟩
    ∧ (sweepBlobMountsInNextRepo noDbErrors demoState 200 200 210 220).successIncr = 1
    ∧ (sweepBlobMountsInNextRepo { noDbErrors with markErr := some "db is down" }
        demoState 200 200 210 220).returnErr =
      some (.dbFailure
        (wrapSweepError
          (sweepBlobMountsBody { noDbErrors with markErr := some "db is down" }
            demoState 200 200 210 220).2.1 "db is down")) :=
  ⟨(sweepBlobMounts_c6 noDbErrors emptyState 0 0 0 0).1 rfl (by decide),
   ((sweepBlobMounts_c6 noDbErrors demoState 200 200 210 220).2.1 (by decide)).1,
   ((sweepBlobMounts_c6 { noDbErrors with markErr := some "db is down" }
      demoState 200 200 210 220).2.2 "db is down" (by decide)).2.2⟩

/-! ## Claim C7 -/

/-- C7: `paginatedQuery.Prepare` clamps the requested limit to at most 1000
(defaulting to 1000 when `?limit=` is absent), substitutes the effective
limit plus one for `$LIMIT` so truncation can be detected, replaces
`$CONDITION` with `TRUE` when no `?marker=` is given or with
`MarkerField > $2` (appending the marker as an extra bind value) when one
is, and errors out on an unparseable `?limit=` value. -/
theorem prepare_c7 (q : PaginatedQuery) :
    (∀ v, q.limitOption ≠ "" → parseUint64Dec q.limitOption = some v →
      Prepare q =
        some (replaceFirst
            (replaceFirst q.SQL "$LIMIT" (toString (min v 1000 + 1)))
            "$CONDITION"
            (if q.markerOption = "" then "TRUE" else q.MarkerField ++ " > $2"),
          (if q.markerOption = "" then q.BindValues
            else q.BindValues ++ [q.markerOption]),
          min v 1000)) ∧
    (q.limitOption = "" →
      Prepare q =
        some (replaceFirst (replaceFirst q.SQL "$LIMIT" "1001") "$CONDITION"
            (if q.markerOption = "" then "TRUE" else q.MarkerField ++ " > $2"),
          (if q.markerOption = "" then q.BindValues
            else q.BindValues ++ [q.markerOption]),
          1000)) ∧
    (q.limitOption ≠ "" → parseUint64Dec q.limitOption = none →
      Prepare q = none) := by
  have hmin : ∀ v : Nat, (if v < 1000 then v else 1000) = min v 1000 := by
    intro v
    split <;> omega
  refine ⟨?_, ?_, ?_⟩
  · intro v hne hv
    by_cases hm : q.markerOption = "" <;>
      simp [Prepare, hne, hv, hm, hmin]
  · intro he
    have hts : toString ((1001 : Nat)) = "1001" := rfl
    by_cases hm : q.markerOption = "" <;>
      simp [Prepare, he, hm, hts]
  · intro hne hv
    simp [Prepare, hne, hv]

/-- Witness for C7: a query with `?limit=3&marker=abc` requests 4 rows and
appends the marker condition and bind value. -/
theorem prepare_c7_witness :
    Prepare { SQL := "SELECT * FROM accounts WHERE $CONDITION ORDER BY name LIMIT $LIMIT",
              MarkerField := "name", limitOption := "3",
              markerOption := "abc", BindValues := [] } =
      some ("SELECT * FROM accounts WHERE name > $2 ORDER BY name LIMIT 4",
        ["abc"], 3) := by
  have h := (prepare_c7
    { SQL := "SELECT * FROM accounts WHERE $CONDITION ORDER BY name LIMIT $LIMIT",
      MarkerField := "name", limitOption := "3",
      markerOption := "abc", BindValues := [] }).1 3 (by decide) (by decide)
  rw [h]
  decide

/-! ## Claim C8 -/

/-- C8: the filesystem driver's `CleanupAccount` refuses while any objects
remain: with at least one stored blob it errors naming the first blob, with
no blobs but at least one stored manifest it errors naming the first
manifest, and it returns nil exactly when no blob and no manifest remains
and the listing itself succeeded. -/
theorem cleanupAccount_c8 (storedBlobs : List StoredBlobInfo)
    (storedManifests : List StoredManifestInfo) (err : Option String) :
    (∀ b rest, storedBlobs = b :: rest →
      CleanupAccount storedBlobs storedManifests err =
        some ("found undeleted blob during CleanupAccount: storageID = \""
          ++ b.storageID ++ "\"")) ∧
    (∀ m rest, storedBlobs = [] → storedManifests = m :: rest →
      CleanupAccount storedBlobs storedManifests err =
        some ("found undeleted manifest during CleanupAccount: "
          ++ m.repoName ++ "@" ++ m.digest)) ∧
    (CleanupAccount storedBlobs storedManifests err = none ↔
      storedBlobs = [] ∧ storedManifests = [] ∧ err = none) := by
  refine ⟨?_, ?_, ?_⟩
  · rintro b rest rfl
    rfl
  · rintro m rest rfl rfl
    rfl
  · cases storedBlobs with
    | cons b rest => simp [CleanupAccount]
    | nil =>
      cases storedManifests with
      | cons m rest => simp [CleanupAccount]
      | nil => simp [CleanupAccount]

/-- Witness for C8: one leftover blob wins over a leftover manifest. -/
theorem cleanupAccount_c8_witness :
    CleanupAccount [{ storageID := "6b86" }]
      [{ repoName := "foo", digest := "sha256:8a92" }] none =
      some "found undeleted blob during CleanupAccount: storageID = \"6b86\"" :=
  (cleanupAccount_c8 [{ storageID := "6b86" }]
    [{ repoName := "foo", digest := "sha256:8a92" }] none).1
    { storageID := "6b86" } [] rfl

/-! ## Claim C10 -/

/-- C10: when the rate-limit driver reports no limit for the account and
action, `RateLimitAllows` returns allowed, a result with `MaxInt64`
remaining and `RetryAfter = -1`, and a nil error, without consulting the
redis token-bucket limiter (the result is the same for every `allowN` and
the consulted flag stays false). -/
theorem rateLimitAllows_c10
    (getRateLimit : String → String → Option RedisRateLimit)
    (allowN : String → RedisRateLimit → Int → RedisRateResult × Option String)
    (acct act : String) (amount : Nat)
    (h : getRateLimit acct act = none) :
    RateLimitAllows getRateLimit allowN acct act amount =
      (true,
       { limit := { rate := maxInt64, burst := 0, period := timeSecond },
         allowed := 0, remaining := maxInt64, retryAfter := -1,
         resetAfter := 0 },
       none, false) := by
  simp [RateLimitAllows, h]

/-- Witness for C10 with a driver that rate-limits nothing and a limiter
stub that would deny everything. -/
theorem rateLimitAllows_c10_witness :
    RateLimitAllows (fun _ _ => none)
      (fun _ _ _ =>
        ({ limit := { rate := 0, burst := 0, period := 0 },
           allowed := 0, remaining := 0, retryAfter := 0, resetAfter := 0 },
         some "denied"))
      "test1" "pullblob" 5 =
      (true,
       { limit := { rate := maxInt64, burst := 0, period := timeSecond },
         allowed := 0, remaining := maxInt64, retryAfter := -1,
         resetAfter := 0 },
       none, false) :=
  rateLimitAllows_c10 (fun _ _ => none)
    (fun _ _ _ =>
      ({ limit := { rate := 0, burst := 0, period := 0 },
         allowed := 0, remaining := 0, retryAfter := 0, resetAfter := 0 },
       some "denied"))
    "test1" "pullblob" 5 rfl

end Keppel
